import Mathlib

/-!
Shallow embedding of the networking core of TheCheesyWiggle/P2PRecipeApp
(src/main.rs): the record catalog operations, the floodsub message handler,
the mDNS membership handler, the user-command handlers and the event-loop
dispatch, together with proofs about them.

Conventions of the embedding:
* Rust String / &str become Lean String; Rust usize becomes Nat (no catalog
  ever approaches 2^64 here, and the code performs no wrapping arithmetic).
* The Store collaborator (recipes.json accessed through read_local_recipes /
  write_local_recipes) is modelled by a Store value carrying the result of a
  read and whether a write fails; fallible operations return Except.
* A wire payload on the floodsub topic is modelled by the WirePayload type:
  the JSON serialization of a ListRequest (an object carrying only a mode
  field), of a ListResponse (an object carrying mode, data and receiver), or
  malformed bytes. serde_json deserialization of each shape is modelled by a
  function on WirePayload: a request object lacks the data and receiver
  fields, so it does not parse as a ListResponse; a response object parses
  as a ListRequest because serde ignores unknown fields by default.
* Effects (log lines, floodsub publishes, store writes, panics) are returned
  as explicit values instead of being performed.
-/

namespace P2PRecipeApp

/-- The Recipe struct of main.rs. -/
structure Recipe where
  id : Nat
  name : String
  ingredients : String
  instructions : String
  public : Bool
deriving DecidableEq, Repr

/-- type Recipes = Vec of Recipe. -/
abbrev Recipes := List Recipe

/-- The ListMode enum of main.rs. -/
inductive ListMode where
  | ALL : ListMode
  | One : String → ListMode
deriving DecidableEq, Repr

/-- The ListRequest struct of main.rs. -/
structure ListRequest where
  mode : ListMode
deriving DecidableEq, Repr

/-- The ListResponse struct of main.rs. -/
structure ListResponse where
  mode : ListMode
  data : Recipes
  receiver : String
deriving DecidableEq, Repr

/-- The EventType enum of main.rs: events drawn by the select loop. -/
inductive EventType where
  | Response : ListResponse → EventType
  | Input : String → EventType
deriving DecidableEq, Repr

/-! ### String primitives used by the command handlers

The handlers use str::strip_prefix, str::starts_with, str::trim,
str::split and usize parsing.  They are modelled on the character list of
the Lean string so that every proof can compute. -/

/-- Drops a leading character-list from another, as str::strip_prefix does
byte-wise: some remainder when the first list is a prefix, none otherwise. -/
def dropPfxList : List Char → List Char → Option (List Char)
  | [], s => some s
  | _ :: _, [] => none
  | p :: ps, c :: cs => if c = p then dropPfxList ps cs else none

/-- Model of Rust str::strip_prefix on Lean strings. -/
def stripPfx (pre s : String) : Option String :=
  (dropPfxList pre.data s.data).map (fun cs => String.mk cs)

/-- Model of Rust str::starts_with: in Rust, s.starts_with(p) holds exactly
when s.strip_prefix(p) is Some. -/
def startsWithStr (pre s : String) : Bool :=
  (stripPfx pre s).isSome

/-- Model of Rust str::trim: remove whitespace from both ends. -/
def trimStr (s : String) : String :=
  String.mk (((s.data.dropWhile Char.isWhitespace).reverse.dropWhile
    Char.isWhitespace).reverse)

/-- Splits a character list on the pipe character, as str::split of a pipe
does: an empty input yields one empty field. -/
def splitPipeAux : List Char → List Char → List (List Char)
  | [], acc => [acc.reverse]
  | c :: cs, acc =>
    if c = '|' then acc.reverse :: splitPipeAux cs [] else splitPipeAux cs (c :: acc)

/-- Model of rest.split of a pipe character collected into a vector. -/
def splitPipe (s : String) : List String :=
  (splitPipeAux s.data []).map (fun cs => String.mk cs)

/-- Digit-list to number, the core of usize parsing. -/
def digitsToNat : List Char → Nat
  | cs => cs.foldl (fun a c => a * 10 + (c.toNat - 48)) 0

/-- Model of str::parse for usize: an optional leading plus sign followed by
one or more decimal digits; anything else is an error (modelled as none). -/
def parseUsize (s : String) : Option Nat :=
  let t := match s.data with
    | '+' :: cs => cs
    | cs => cs
  if t = [] then none
  else if t.all Char.isDigit then some (digitsToNat t) else none

/-! ### The Store collaborator and the catalog operations -/

/-- The Store collaborator: the outcome the next read_local_recipes returns,
and whether write_local_recipes fails.  read is Except.ok with the catalog
parsed from recipes.json, or Except.error with an io or decode error. -/
structure Store where
  read : Except String Recipes
  writeFails : Bool
deriving Repr

/-- One step of the fold behind iter().max_by_key(r.id): keep the element of
largest id, preferring the later element on ties, exactly as the Rust
iterator adapter does. -/
def max_step (acc : Option Recipe) (r : Recipe) : Option Recipe :=
  match acc with
  | none => some r
  | some m => if m.id ≤ r.id then some r else some m

/-- local_recipes.iter().max_by_key(r.id) of create_new_recipe. -/
def max_by_key_id (rs : Recipes) : Option Recipe :=
  rs.foldl max_step none

/-- The id assigned by create_new_recipe: the match on max_by_key giving
max id plus one, or zero for an empty catalog. -/
def new_recipe_id (rs : Recipes) : Nat :=
  match max_by_key_id rs with
  | some v => v.id + 1
  | none => 0

/-- The catalog transformation of create_new_recipe: push a new private
recipe carrying the assigned id. -/
def create_on_catalog (rs : Recipes) (name ingredients instructions : String) : Recipes :=
  rs ++ [⟨new_recipe_id rs, name, ingredients, instructions, false⟩]

/-- The catalog transformation of publish_recipe: iter_mut().filter(id
matches).for_each(set public), an in-place map that flips the public flag of
every matching record and leaves everything else untouched. -/
def publish_on_catalog (id : Nat) (rs : Recipes) : Recipes :=
  rs.map (fun r => if r.id = id then { r with public := true } else r)

/-- create_new_recipe of main.rs: read the catalog, assign the id, push the
new private recipe, write back.  Returns the catalog written on success, or
the first store error encountered. -/
def create_new_recipe (st : Store) (name ingredients instructions : String) :
    Except String Recipes :=
  match st.read with
  | .error e => .error e
  | .ok local_recipes =>
    if st.writeFails then .error "write error"
    else .ok (create_on_catalog local_recipes name ingredients instructions)

/-- publish_recipe of main.rs: read the catalog, set the public flag on the
matching id, write back. -/
def publish_recipe (st : Store) (id : Nat) : Except String Recipes :=
  match st.read with
  | .error e => .error e
  | .ok local_recipes =>
    if st.writeFails then .error "write error"
    else .ok (publish_on_catalog id local_recipes)

/-! ### The floodsub protocol handler -/

/-- A payload observed on the floodsub topic, by the JSON shape it carries:
the serialization of a ListRequest (only a mode field), the serialization of
a ListResponse (mode, data and receiver fields), or anything else. -/
inductive WirePayload where
  | request : ListRequest → WirePayload
  | response : ListResponse → WirePayload
  | malformed : WirePayload
deriving DecidableEq, Repr

/-- serde_json deserialization of a payload as a ListResponse: only a
serialized ListResponse supplies the mode, data and receiver fields. -/
def from_slice_ListResponse : WirePayload → Option ListResponse
  | .response r => some r
  | _ => none

/-- serde_json deserialization of a payload as a ListRequest: a serialized
ListRequest parses; a serialized ListResponse also parses, because serde
ignores its extra fields; malformed bytes do not.  (main.rs line 120 never
calls this: the request branch deserializes with the ListResponse type.) -/
def from_slice_ListRequest : WirePayload → Option ListRequest
  | .request r => some r
  | .response r => some ⟨r.mode⟩
  | .malformed => none

/-- A floodsub message as seen by inject_event: originating peer id and
payload bytes. -/
structure FloodsubMessage where
  source : String
  data : WirePayload
deriving DecidableEq, Repr

/-- The observable effect of one floodsub inject_event call: the records
surfaced to the user output, and the ListResponses queued on the response
channel (by respond_with_public_recipes tasks it spawns). -/
structure FloodsubEffect where
  surfaced : Recipes
  queued : List ListResponse
deriving DecidableEq, Repr

/-- respond_with_public_recipes of main.rs: read the catalog; on success
queue one ListResponse carrying the public records, addressed to the given
receiver; on a store error log and queue nothing. -/
def respond_with_public_recipes (store : Except String Recipes) (receiver : String) :
    List ListResponse :=
  match store with
  | .ok recipes => [⟨ListMode.ALL, recipes.filter (fun r => r.public), receiver⟩]
  | .error _ => []

/-- The acceptance test of the ListMode::One branch of inject_event
(main.rs line 136): the request's target must equal the local peer id. -/
def accepts_one (localPeerId target : String) : Bool :=
  target = localPeerId

/-- inject_event for FloodsubEvent (main.rs lines 107 to 148), with the
local PEER_ID string, the store read outcome, and the message as inputs.
First branch: parse as ListResponse and surface the data when the receiver
matches.  Second branch (the source comment says case for request): parse
again with the ListResponse type — exactly as line 120 of main.rs does, not
with ListRequest — and answer according to the mode. -/
def inject_event_floodsub (localPeerId : String) (store : Except String Recipes)
    (msg : FloodsubMessage) : FloodsubEffect :=
  match from_slice_ListResponse msg.data with
  | some resp =>
    if resp.receiver = localPeerId then ⟨resp.data, []⟩ else ⟨[], []⟩
  | none =>
    match from_slice_ListResponse msg.data with
    | some req =>
      match req.mode with
      | ListMode.ALL => ⟨[], respond_with_public_recipes store msg.source⟩
      | ListMode.One peerId =>
        if accepts_one localPeerId peerId then
          ⟨[], respond_with_public_recipes store msg.source⟩
        else ⟨[], []⟩
    | none => ⟨[], []⟩

/-! ### The mDNS membership handler -/

/-- The floodsub overlay partial view: the peers messages propagate to. -/
abbrev PartialView := List String

/-- Floodsub add_node_to_partial_view: set-like insert. -/
def add_node_to_partial_view (view : PartialView) (peer : String) : PartialView :=
  if peer ∈ view then view else peer :: view

/-- Floodsub remove_node_from_partial_view: remove the peer. -/
def remove_node_from_partial_view (view : PartialView) (peer : String) : PartialView :=
  view.filter (fun p => p ≠ peer)

/-- The MdnsEvent enum: lists of discovered or expired (peer, address)
pairs. -/
inductive MdnsEvent where
  | Discovered : List (String × String) → MdnsEvent
  | Expired : List (String × String) → MdnsEvent

/-- inject_event for MdnsEvent (main.rs lines 79 to 101).  mdnsHas models
self.mdns.has_node: whether some active mDNS discovery record still reports
the peer.  Discovered adds each peer to the partial view; Expired removes a
peer only when has_node no longer reports it. -/
def inject_event_mdns (mdnsHas : String → Bool) (ev : MdnsEvent) (view : PartialView) :
    PartialView :=
  match ev with
  | .Discovered l => l.foldl (fun v pa => add_node_to_partial_view v pa.1) view
  | .Expired l =>
    l.foldl (fun v pa =>
      if mdnsHas pa.1 then v else remove_node_from_partial_view v pa.1) view

/-! ### Command handlers and the event-loop dispatch -/

/-- The observable effect of handling one user command or one loop event. -/
inductive CmdEffect where
  | noop : CmdEffect
  | info : String → CmdEffect
  | errorLog : String → CmdEffect
  | wrote : Recipes → CmdEffect
  | published : ListRequest → CmdEffect
  | publishedResponse : ListResponse → CmdEffect
  | printedLocal : Recipes → CmdEffect
  | printedPeers : CmdEffect
  | panicked : String → CmdEffect
deriving DecidableEq, Repr

/-- Whether the effect is a crash of the process. -/
def CmdEffect.isPanic : CmdEffect → Bool
  | .panicked _ => true
  | _ => false

/-- Whether the effect is a failure reported to the user (an info or error
log line), with the loop continuing. -/
def CmdEffect.isReport : CmdEffect → Bool
  | .info _ => true
  | .errorLog _ => true
  | _ => false

/-- handle_create_recipes of main.rs: strip the create prefix, split the
rest on pipes, demand at least three fields, then create; a store error
makes it panic (main.rs line 280). -/
def handle_create_recipes (st : Store) (cmd : String) : CmdEffect :=
  match stripPfx "create r" cmd with
  | none => .noop
  | some rest =>
    match splitPipe rest with
    | name :: ingredients :: instructions :: _ =>
      match create_new_recipe st name ingredients instructions with
      | .error e => .panicked ("error creating recipe: " ++ e)
      | .ok catalog => .wrote catalog
    | _ => .info "too few arguments - Format: name|ingredients|instructions"

/-- handle_publish_recipes of main.rs: strip the publish prefix, trim and
parse the id; an invalid id makes it panic (main.rs line 331); a store
error is reported and the loop continues. -/
def handle_publish_recipes (st : Store) (cmd : String) : CmdEffect :=
  match stripPfx "publish r" cmd with
  | none => .noop
  | some rest =>
    match parseUsize (trimStr rest) with
    | some id =>
      match publish_recipe st id with
      | .error e =>
        .info ("error publishing recipe with id " ++ toString id ++ ", " ++ e)
      | .ok catalog => .wrote catalog
    | none => .panicked ("Invalid id " ++ trimStr rest)

/-- handle_list_recipes of main.rs (lines 362 to 404): the match on
cmd.strip_prefix of the four characters l, s, space, r — with no trailing
space.  The Some(all-literal) arm is the equality test the Rust string
pattern compiles to; any other remainder becomes the One target verbatim;
with no prefix match the local catalog is read and printed. -/
def handle_list_recipes (st : Store) (cmd : String) : CmdEffect :=
  match stripPfx "ls r" cmd with
  | some rest =>
    if rest = "all" then .published ⟨ListMode.ALL⟩
    else .published ⟨ListMode.One rest⟩
  | none =>
    match st.read with
    | .ok v => .printedLocal v
    | .error e => .errorLog ("error fetching local recipes: " ++ e)

/-- The command dispatch of the event loop (main.rs lines 238 to 244):
exact match on ls p, then prefix guards, then panic on anything else. -/
def dispatch_input (st : Store) (line : String) : CmdEffect :=
  if line = "ls p" then .printedPeers
  else if startsWithStr "ls r" line then handle_list_recipes st line
  else if startsWithStr "create r" line then handle_create_recipes st line
  else if startsWithStr "publish r" line then handle_publish_recipes st line
  else .panicked "Unknown command"

/-- The event dispatch of one loop iteration (main.rs lines 233 to 246):
the Response arm is the empty block of line 236 — the drawn response is
discarded, nothing is serialized and nothing is published. -/
def handle_event (st : Store) : EventType → CmdEffect
  | .Response _ => .noop
  | .Input line => dispatch_input st line

/-- What the stdin arm of the select produces from next_line (main.rs line
224): Ok(Some line) yields an Input event; Ok(None) — end of input — hits
the second expect and panics. -/
inductive SelectStep where
  | event : EventType → SelectStep
  | panicked : String → SelectStep
deriving DecidableEq, Repr

/-- The stdin select arm of main.rs line 224. -/
def stdin_arm : Option String → SelectStep
  | some line => .event (.Input line)
  | none => .panicked "can read line from stdin"

/-! ### Operation sequences over the catalog, for the id-assignment claims -/

/-- A store-mutating user operation: a create or a publish. -/
inductive StoreOp where
  | create : String → String → String → StoreOp
  | publish : Nat → StoreOp

/-- Apply one operation to the catalog. -/
def apply_op : StoreOp → Recipes → Recipes
  | .create n i s, rs => create_on_catalog rs n i s
  | .publish id, rs => publish_on_catalog id rs

/-- Run a sequence of operations left to right. -/
def run_ops (ops : List StoreOp) (rs : Recipes) : Recipes :=
  ops.foldl (fun acc op => apply_op op acc) rs

/-- The ids assigned by the create operations of a sequence, in order. -/
def assigned_ids (ops : List StoreOp) (rs : Recipes) : List Nat :=
  match ops with
  | [] => []
  | .create n i s :: rest =>
    new_recipe_id rs :: assigned_ids rest (apply_op (.create n i s) rs)
  | .publish id :: rest => assigned_ids rest (apply_op (.publish id) rs)

/-- The number of create operations in a sequence. -/
def count_creates : List StoreOp → Nat
  | [] => 0
  | .create _ _ _ :: rest => count_creates rest + 1
  | .publish _ :: rest => count_creates rest

/-! ### Helper lemmas -/

/-- Dropping a list from itself followed by anything leaves the rest. -/
theorem dropPfxList_self_append (p s : List Char) : dropPfxList p (p ++ s) = some s := by
  induction p with
  | nil => rfl
  | cons c cs ih => simp [dropPfxList, ih]

/-- Rebuilding a string from its character list is the identity. -/
theorem mk_data_eq (s : String) : String.mk s.data = s := by
  cases s
  rfl

/-- stripPfx removes an actual prefix. -/
theorem stripPfx_append (p s : String) : stripPfx p (p ++ s) = some s := by
  unfold stripPfx
  rw [String.data_append, dropPfxList_self_append]
  simp [mk_data_eq]

/-- Unfolding one maximum step on a some accumulator. -/
theorem max_step_some (m r : Recipe) :
    max_step (some m) r = some (if m.id ≤ r.id then r else m) := by
  by_cases h : m.id ≤ r.id <;> simp [max_step, h]

/-- The fold behind max_by_key, started on an element, yields an element of
the list or the start, bounding every id seen. -/
theorem foldl_max_spec (rs : Recipes) :
    ∀ m : Recipe, ∃ v, rs.foldl max_step (some m) = some v
      ∧ (v = m ∨ v ∈ rs) ∧ m.id ≤ v.id ∧ ∀ r ∈ rs, r.id ≤ v.id := by
  induction rs with
  | nil => exact fun m => ⟨m, rfl, Or.inl rfl, le_refl _, by simp⟩
  | cons r t ih =>
    intro m
    by_cases hc : m.id ≤ r.id
    · obtain ⟨v, hv, hmem, hle, hall⟩ := ih r
      refine ⟨v, ?_, ?_, le_trans hc hle, ?_⟩
      · rw [List.foldl_cons, max_step_some, if_pos hc]
        exact hv
      · rcases hmem with h | h
        · exact Or.inr (h ▸ List.mem_cons_self r t)
        · exact Or.inr (List.mem_cons_of_mem _ h)
      · intro x hx
        rcases List.mem_cons.mp hx with h | h
        · exact h ▸ hle
        · exact hall x h
    · obtain ⟨v, hv, hmem, hle, hall⟩ := ih m
      refine ⟨v, ?_, ?_, hle, ?_⟩
      · rw [List.foldl_cons, max_step_some, if_neg hc]
        exact hv
      · rcases hmem with h | h
        · exact Or.inl h
        · exact Or.inr (List.mem_cons_of_mem _ h)
      · intro x hx
        rcases List.mem_cons.mp hx with h | h
        · exact h ▸ le_trans (le_of_not_le hc) hle
        · exact hall x h

/-- On a nonempty catalog, max_by_key returns a member whose id bounds every
id in the catalog. -/
theorem max_by_key_id_cons_spec (r : Recipe) (t : Recipes) :
    ∃ v, max_by_key_id (r :: t) = some v ∧ v ∈ r :: t ∧ ∀ x ∈ r :: t, x.id ≤ v.id := by
  obtain ⟨v, hv, hmem, hle, hall⟩ := foldl_max_spec t r
  refine ⟨v, hv, ?_, ?_⟩
  · rcases hmem with h | h
    · exact h ▸ List.mem_cons_self r t
    · exact List.mem_cons_of_mem _ h
  · intro x hx
    rcases List.mem_cons.mp hx with h | h
    · exact h ▸ hle
    · exact hall x h

/-- A catalog whose ids are exactly 0 to k-1 hands the id k to the next
create. -/
theorem new_recipe_id_of_range (rs : Recipes) (k : Nat)
    (h : rs.map (fun r => r.id) = List.range k) : new_recipe_id rs = k := by
  cases rs with
  | nil =>
    have hk : k = 0 := by simpa using h.symm
    simp [new_recipe_id, max_by_key_id, hk]
  | cons r t =>
    obtain ⟨v, hv, hmem, hall⟩ := max_by_key_id_cons_spec r t
    have hvid : v.id < k := by
      have hm : v.id ∈ (r :: t).map (fun r => r.id) := List.mem_map_of_mem _ hmem
      rw [h] at hm
      exact List.mem_range.mp hm
    have hk0 : 0 < k := Nat.pos_of_ne_zero (by
      intro hk
      subst hk
      simp at h)
    have hsub : k - 1 ≤ v.id := by
      have hmem2 : k - 1 ∈ (r :: t).map (fun r => r.id) := by
        rw [h]
        exact List.mem_range.mpr (Nat.sub_lt hk0 Nat.one_pos)
      obtain ⟨u, hu, huid⟩ := List.mem_map.mp hmem2
      exact huid ▸ hall u hu
    have hveq : v.id = k - 1 := le_antisymm (Nat.le_sub_one_of_lt hvid) hsub
    simp [new_recipe_id, hv, hveq, Nat.sub_add_cancel hk0]

/-- Toggling public flags never changes the id sequence of the catalog. -/
theorem publish_preserves_ids (id : Nat) (rs : Recipes) :
    (publish_on_catalog id rs).map (fun r => r.id) = rs.map (fun r => r.id) := by
  unfold publish_on_catalog
  rw [List.map_map]
  apply List.map_congr_left
  intro r _
  by_cases h : r.id = id <;> simp [Function.comp, h]

/-- The id-assignment invariant: from a catalog whose ids are 0 to k-1, a
sequence of operations assigns exactly k, k+1, ... to its creates, and the
final catalog's ids are again an initial segment. -/
theorem run_ops_ids (ops : List StoreOp) :
    ∀ (rs : Recipes) (k : Nat), rs.map (fun r => r.id) = List.range k →
      assigned_ids ops rs = List.range' k (count_creates ops)
      ∧ (run_ops ops rs).map (fun r => r.id) = List.range (k + count_creates ops) := by
  induction ops with
  | nil => exact fun rs k h => ⟨rfl, by simpa using h⟩
  | cons op rest ih =>
    intro rs k h
    cases op with
    | create n i s =>
      have hid : new_recipe_id rs = k := new_recipe_id_of_range rs k h
      have hstate : (apply_op (StoreOp.create n i s) rs).map (fun r => r.id)
          = List.range (k + 1) := by
        simp [apply_op, create_on_catalog, hid, h, List.range_succ]
      obtain ⟨h1, h2⟩ := ih _ (k + 1) hstate
      constructor
      · show new_recipe_id rs :: assigned_ids rest _ = _
        rw [hid, h1]
        show _ = List.range' k (count_creates rest + 1)
        rw [List.range'_succ]
      · show (run_ops rest _).map (fun r => r.id) = _
        rw [h2]
        simp only [count_creates]
        exact congrArg List.range (by omega)
    | publish pid =>
      have hstate : (apply_op (StoreOp.publish pid) rs).map (fun r => r.id)
          = List.range k := by
        simpa [apply_op] using (publish_preserves_ids pid rs).trans h
      obtain ⟨h1, h2⟩ := ih _ k hstate
      exact ⟨h1, h2⟩

/-! ### Claim theorems -/

/-- C1.  For every inbound floodsub payload, the node never queues any
outbound ListResponse: the request branch of inject_event deserializes with
the ListResponse type (main.rs line 120) inside the else of the first
ListResponse parse, so it can only run when that very same parse has already
failed — the branch is unreachable, and a payload carrying a serialized
ListRequest (with mode All or One alike) is dropped with no response and no
output.  This contradicts the claim that a decoded ListRequest with mode All,
or with mode One naming the local identity, produces a ListResponse. -/
theorem floodsub_requests_never_answered (pid src : String)
    (store : Except String Recipes) (req : ListRequest) :
    inject_event_floodsub pid store ⟨src, WirePayload.request req⟩ = ⟨[], []⟩
    ∧ ∀ msg : FloodsubMessage, (inject_event_floodsub pid store msg).queued = [] := by
  refine ⟨rfl, ?_⟩
  intro msg
  obtain ⟨source, data⟩ := msg
  cases data with
  | request r => rfl
  | malformed => rfl
  | response r =>
    simp only [inject_event_floodsub, from_slice_ListResponse]
    by_cases h : r.receiver = pid <;> simp [h]

/-- C2.  When the event loop draws a queued ListResponse from the response
channel, it discards it: the Response match arm of main.rs line 236 is an
empty block, so nothing is serialized and publish is never called — contrary
to the claim that the loop serializes the response and publishes it. -/
theorem response_events_discarded_not_published (st : Store) (resp : ListResponse) :
    handle_event st (EventType.Response resp) = CmdEffect.noop
    ∧ ∀ r : ListResponse,
        handle_event st (EventType.Response resp) ≠ CmdEffect.publishedResponse r := by
  refine ⟨rfl, ?_⟩
  intro r h
  cases h

/-- C3.  The command line ls r all does not publish a ListRequest with mode
All: stripping the prefix of the four characters l, s, space, r (main.rs
line 364 has no trailing space in the prefix) leaves the remainder
space-a-l-l, which fails the all-literal pattern, so the code publishes a
ListRequest with mode One of that remainder instead. -/
theorem ls_r_all_publishes_one_not_all (st : Store) :
    dispatch_input st "ls r all" = CmdEffect.published ⟨ListMode.One " all"⟩
    ∧ dispatch_input st "ls r all" ≠ CmdEffect.published ⟨ListMode.ALL⟩ := by
  have h : dispatch_input st "ls r all" = CmdEffect.published ⟨ListMode.One " all"⟩ := rfl
  refine ⟨h, ?_⟩
  rw [h]
  simp

/-- C4 counterexample.  A Store read failure during a create command is not
surfaced as a reported failure: handle_create_recipes panics on it (main.rs
line 280), crashing the event loop. -/
theorem store_failure_crashes_create :
    CmdEffect.isPanic
      (handle_create_recipes ⟨Except.error "io error", false⟩ "create r a|b|c") = true
    ∧ CmdEffect.isReport
      (handle_create_recipes ⟨Except.error "io error", false⟩ "create r a|b|c") = false :=
  ⟨rfl, rfl⟩

/-- C4 amended.  Among the commands the claim covers, for both Store
failure modes — a failing read (any error e, any write behavior wf) and a
failing write (any catalog rs read successfully): a Store failure during
publish is reported and the loop continues; a Store failure during create
panics, crashing the process; and the list-local command never reads the
Store at all, because stripping the ls-r prefix from the command ls r
succeeds with an empty remainder, so the local branch is unreachable and a
One request with empty target is broadcast instead. -/
theorem store_failure_handling_amended (e : String) (wf : Bool) (rs : Recipes) :
    CmdEffect.isReport (dispatch_input ⟨Except.error e, wf⟩ "publish r 0") = true
    ∧ CmdEffect.isPanic (dispatch_input ⟨Except.error e, wf⟩ "create r a|b|c") = true
    ∧ CmdEffect.isReport (dispatch_input ⟨Except.ok rs, true⟩ "publish r 0") = true
    ∧ CmdEffect.isPanic (dispatch_input ⟨Except.ok rs, true⟩ "create r a|b|c") = true
    ∧ dispatch_input ⟨Except.error e, wf⟩ "ls r" = CmdEffect.published ⟨ListMode.One ""⟩ :=
  ⟨rfl, rfl, rfl, rfl, rfl⟩

/-- C5.  An unrecognized command line is not reported-and-survived: the
dispatch's catch-all arm panics (main.rs line 243), terminating the process;
likewise a publish command with a non-numeric id panics (main.rs line 331)
instead of reporting the parse error. -/
theorem unknown_or_invalid_command_panics (st : Store) :
    dispatch_input st "foo" = CmdEffect.panicked "Unknown command"
    ∧ CmdEffect.isPanic (dispatch_input st "publish r abc") = true :=
  ⟨rfl, rfl⟩

/-- C6 counterexample.  It is false that reaching end of input leaves the
loop free of panics: the stdin select arm panics at end of input. -/
theorem stdin_eof_not_panic_free :
    ¬ ∀ msg : String, stdin_arm none ≠ SelectStep.panicked msg :=
  fun h => h "can read line from stdin" rfl

/-- C6 amended.  When the user-input stream terminates, next_line yields no
line and the second expect of main.rs line 224 panics: the loop ends by
aborting the process, not by exiting cleanly. -/
theorem stdin_eof_panics :
    stdin_arm none = SelectStep.panicked "can read line from stdin"
    ∧ ∀ e : EventType, stdin_arm none ≠ SelectStep.event e := by
  refine ⟨rfl, ?_⟩
  intro e h
  cases h

/-- C7.  From an empty catalog, any sequence of create operations is
assigned the ids 0, 1, 2, ... in order, however publish operations are
interleaved: the assigned ids and the final catalog's ids are exactly an
initial segment of the naturals, publish never changes any id, and the id
handed out is max_by_key plus one, or 0 on an empty catalog. -/
theorem create_ids_monotonic (ops : List StoreOp) :
    assigned_ids ops [] = List.range (count_creates ops)
    ∧ (run_ops ops []).map (fun r => r.id) = List.range (count_creates ops)
    ∧ (∀ id rs, (publish_on_catalog id rs).map (fun r => r.id) = rs.map (fun r => r.id))
    ∧ new_recipe_id [] = 0
    ∧ (∀ rs v, max_by_key_id rs = some v → new_recipe_id rs = v.id + 1) := by
  obtain ⟨h1, h2⟩ := run_ops_ids ops [] 0 (by simp)
  refine ⟨?_, by simpa using h2, publish_preserves_ids, rfl, ?_⟩
  · rw [h1, ← List.range_eq_range']
  · intro rs v hv
    simp [new_recipe_id, hv]

/-- C7 witness: a create-publish-create run from the empty catalog assigns
the ids 0 and 1, and on a singleton catalog of id 5 the next id is 6. -/
theorem create_ids_monotonic_witness :
    assigned_ids [StoreOp.create "a" "" "", StoreOp.publish 0, StoreOp.create "b" "" ""] []
      = [0, 1]
    ∧ new_recipe_id [⟨5, "x", "y", "z", false⟩] = 6 := by
  have h := create_ids_monotonic
    [StoreOp.create "a" "" "", StoreOp.publish 0, StoreOp.create "b" "" ""]
  exact ⟨h.1.trans (by decide), h.2.2.2.2 [⟨5, "x", "y", "z", false⟩] ⟨5, "x", "y", "z", false⟩ rfl⟩

/-- C8.  publish_recipe's catalog transformation is a frame: with no
matching id the catalog is returned unchanged (same records, same order),
and the store call completes without error; with a matching id only the
matching record's public flag is set and every other record and position is
untouched. -/
theorem publish_unknown_id_frame (id : Nat) (rs : Recipes) :
    ((∀ r ∈ rs, r.id ≠ id) → publish_on_catalog id rs = rs)
    ∧ (publish_on_catalog id rs).length = rs.length
    ∧ (∀ (i : Nat) (r : Recipe), rs[i]? = some r → r.id ≠ id →
        (publish_on_catalog id rs)[i]? = some r)
    ∧ (∀ (i : Nat) (r : Recipe), rs[i]? = some r → r.id = id →
        (publish_on_catalog id rs)[i]? = some ⟨r.id, r.name, r.ingredients, r.instructions, true⟩)
    ∧ (∀ st rs0, st.read = Except.ok rs0 → st.writeFails = false →
        publish_recipe st id = Except.ok (publish_on_catalog id rs0)) := by
  refine ⟨?_, by simp [publish_on_catalog], ?_, ?_, ?_⟩
  · intro h
    unfold publish_on_catalog
    have hcong : ∀ r ∈ rs,
        (fun r => if r.id = id then { r with public := true } else r) r = (fun r => r) r :=
      fun r hr => by simp [h r hr]
    rw [List.map_congr_left hcong, List.map_id']
  · intro i r hi hne
    unfold publish_on_catalog
    rw [List.getElem?_map, hi]
    simp [hne]
  · intro i r hi heq
    unfold publish_on_catalog
    rw [List.getElem?_map, hi]
    simp [heq]
  · intro st rs0 h1 h2
    simp [publish_recipe, h1, h2]

/-- C8 witness: publishing the unknown id 999 on a one-record catalog
leaves it unchanged and the store call succeeds. -/
theorem publish_unknown_id_frame_witness :
    publish_on_catalog 999 [⟨0, "Soup", "water,salt", "boil", true⟩]
      = [⟨0, "Soup", "water,salt", "boil", true⟩]
    ∧ (publish_on_catalog 999 [⟨0, "Soup", "water,salt", "boil", true⟩]).length = 1
    ∧ publish_recipe ⟨Except.ok [⟨0, "Soup", "water,salt", "boil", true⟩], false⟩ 999
      = Except.ok (publish_on_catalog 999 [⟨0, "Soup", "water,salt", "boil", true⟩]) := by
  have h := publish_unknown_id_frame 999 [⟨0, "Soup", "water,salt", "boil", true⟩]
  exact ⟨h.1 (by decide), h.2.1, h.2.2.2.2 _ _ rfl rfl⟩

/-- The Expired fold never drops a peer that mdns still reports. -/
theorem expired_foldl_keeps_reported (has : String → Bool) (l : List (String × String)) :
    ∀ (view : PartialView) (p : String), has p = true → p ∈ view →
      p ∈ l.foldl (fun v pa =>
        if has pa.1 then v else remove_node_from_partial_view v pa.1) view := by
  induction l with
  | nil => exact fun _ _ _ hp => hp
  | cons pa t ih =>
    intro view p hhas hp
    rw [List.foldl_cons]
    apply ih _ p hhas
    by_cases hq : has pa.1
    · simpa [hq] using hp
    · have hne : p ≠ pa.1 := by
        intro he
        rw [he] at hhas
        simp [hhas] at hq
      simp [hq, remove_node_from_partial_view, List.mem_filter, hp, hne]

/-- C9.  The Expired handler removes a peer from the overlay partial view
only when has_node no longer reports it through any active mDNS discovery
record; an expiry of a still-reported peer is a no-op, so a peer stays in
the view as long as a discovery signal still asserts it. -/
theorem expired_only_removes_unreported (has : String → Bool)
    (l : List (String × String)) (view : PartialView) :
    (∀ p, has p = true → p ∈ view →
      p ∈ inject_event_mdns has (MdnsEvent.Expired l) view)
    ∧ (∀ peer addr, has peer = true →
        inject_event_mdns has (MdnsEvent.Expired [(peer, addr)]) view = view)
    ∧ (∀ p, p ∈ view → p ∉ inject_event_mdns has (MdnsEvent.Expired l) view →
        has p = false) := by
  refine ⟨?_, ?_, ?_⟩
  · intro p hp hm
    exact expired_foldl_keeps_reported has l view p hp hm
  · intro peer addr hpeer
    simp [inject_event_mdns, hpeer]
  · intro p hp hnot
    cases hb : has p with
    | false => rfl
    | true => exact absurd (expired_foldl_keeps_reported has l view p hb hp) hnot

/-- C9 witness: a peer that mdns still reports survives its own expiry
event. -/
theorem expired_only_removes_unreported_witness :
    "A" ∈ inject_event_mdns (fun _ => true) (MdnsEvent.Expired [("A", "addr1")]) ["A"] :=
  (expired_only_removes_unreported (fun _ => true) [("A", "addr1")] ["A"]).1 "A" rfl
    (by simp)

/-- C10.  A command of the shape ls r followed by a space and a target
publishes a One request whose target keeps the separating space verbatim
(only the four-character prefix is stripped); the acceptance test of the
One branch compares that target for string equality with the local peer id,
so any peer id that does not begin with a space never matches, and the
actual handler queues no response to any such request at all. -/
theorem one_request_target_keeps_space (rest pid src : String)
    (st : Store) (store : Except String Recipes)
    (h : pid.data.head? ≠ some ' ') :
    handle_list_recipes st ("ls r " ++ rest)
      = CmdEffect.published ⟨ListMode.One (" " ++ rest)⟩
    ∧ accepts_one pid (" " ++ rest) = false
    ∧ (inject_event_floodsub pid store
        ⟨src, WirePayload.request ⟨ListMode.One (" " ++ rest)⟩⟩).queued = [] := by
  have hd1 : "ls r ".data = ['l', 's', ' ', 'r', ' '] := by decide
  have hd2 : "ls r".data = ['l', 's', ' ', 'r'] := by decide
  have hd3 : " ".data = [' '] := by decide
  have hsp : (" " ++ rest).data = ' ' :: rest.data := by
    rw [String.data_append, hd3]
    rfl
  have hsplit : ("ls r " ++ rest) = "ls r" ++ (" " ++ rest) := by
    apply String.ext
    rw [String.data_append, String.data_append, String.data_append, hd1, hd2, hd3]
    rfl
  have hstrip : stripPfx "ls r" ("ls r " ++ rest) = some (" " ++ rest) := by
    rw [hsplit]
    exact stripPfx_append _ _
  have hne : (" " ++ rest) ≠ "all" := by
    intro he
    have h2 := congrArg String.data he
    rw [hsp] at h2
    have h3 : (' ' : Char) = 'a' := by injection h2
    exact absurd h3 (by decide)
  refine ⟨?_, ?_, rfl⟩
  · simp [handle_list_recipes, hstrip, hne]
  · have hne2 : (" " ++ rest) ≠ pid := by
      intro he
      apply h
      rw [← he, hsp]
      rfl
    simp [accepts_one, hne2]

/-- C10 witness: ls r QmPeer publishes One(space QmPeer), which even the
node whose id is QmPeer would not accept. -/
theorem one_request_target_keeps_space_witness :
    handle_list_recipes ⟨Except.ok [], false⟩ ("ls r " ++ "QmPeer")
      = CmdEffect.published ⟨ListMode.One (" " ++ "QmPeer")⟩
    ∧ accepts_one "QmPeer" (" " ++ "QmPeer") = false := by
  have h := one_request_target_keeps_space "QmPeer" "QmPeer" "QmSrc"
    ⟨Except.ok [], false⟩ (Except.ok []) (by decide)
  exact ⟨h.1, h.2.1⟩

end P2PRecipeApp
